import Mathlib

/-!
Verification of the job-lifecycle microservice (src/app/main.go).

The service is a thin HTTP layer over an external message queue and an
external object store.  We embed the data shapes (JobRequest, JobMessage,
JobResult), the JSON codecs, the three HTTP handlers (readyz, createJob,
getJob), the worker-side processMessage and one worker-loop iteration,
and a small-step transition system tying them together, all translated
from src/app/main.go.  External effects (queue send/receive/delete and
store put/get outcomes) are explicit parameters; timestamps are modelled
as natural-number instants; JSON documents are modelled as a syntax tree
rather than byte strings.
-/

/-- JSON value tree, modelling the documents produced and consumed by
encoding/json in main.go.  A queue or store payload that is not valid
JSON at all is modelled as the absence of a tree (Option.none at the
use sites). -/
inductive Json where
  | null
  | bool (b : Bool)
  | num (n : Int)
  | str (s : String)
  | arr (elems : List Json)
  | obj (fields : List (String × Json))

/-- JobRequest from main.go lines 29-31: the POST /jobs request body. -/
structure JobRequest where
  text : String
  deriving DecidableEq

/-- JobMessage from main.go lines 33-36: the shape serialized into the queue. -/
structure JobMessage where
  id : String
  text : String
  deriving DecidableEq

/-- JobResult from main.go lines 38-43: the shape persisted in the object
store.  ProcessedAt (a time.Time in the source) is modelled as a natural
number instant. -/
structure JobResult where
  id : String
  text : String
  output : String
  processed_at : Nat
  deriving DecidableEq

/-- Reading a string-typed struct field from a decoded JSON object, as
encoding/json does: an absent field or a JSON null leaves the zero value
(empty string); a present field of any other non-string type is an
unmarshal error. -/
def getStringField (fields : List (String × Json)) (name : String) : Option String :=
  match fields.lookup name with
  | none => some ""
  | some (Json.str s) => some s
  | some Json.null => some ""
  | some _ => none

/-- Reading the processed_at field: absent or null leaves the zero value;
a non-negative number is the instant; anything else is an unmarshal
error (the source stores an RFC3339 timestamp, modelled here as a
number). -/
def getTimeField (fields : List (String × Json)) (name : String) : Option Nat :=
  match fields.lookup name with
  | none => some 0
  | some Json.null => some 0
  | some (Json.num n) => if 0 ≤ n then some n.toNat else none
  | some _ => none

/-- json.Marshal of a JobMessage (main.go line 130): object with the two
string fields in struct order. -/
def encodeJobMessage (m : JobMessage) : Json :=
  Json.obj [("id", Json.str m.id), ("text", Json.str m.text)]

/-- json.Unmarshal of a payload into a JobMessage (main.go line 216).
None models bytes that are not valid JSON; a JSON null decodes as a
no-op leaving the zero struct; a JSON object fills the fields; any
other document is a type error. -/
def decodeJobMessage (body : Option Json) : Option JobMessage :=
  match body with
  | none => none
  | some Json.null => some ⟨"", ""⟩
  | some (Json.obj fields) => do
      let id ← getStringField fields "id"
      let text ← getStringField fields "text"
      pure ⟨id, text⟩
  | some _ => none

/-- json Decode of the POST /jobs request body into a JobRequest
(main.go line 119), with the same conventions as decodeJobMessage. -/
def decodeJobRequest (body : Option Json) : Option JobRequest :=
  match body with
  | none => none
  | some Json.null => some ⟨""⟩
  | some (Json.obj fields) => do
      let text ← getStringField fields "text"
      pure ⟨text⟩
  | some _ => none

/-- json.Marshal of a JobResult (main.go line 229): object with the four
fields in struct order. -/
def encodeJobResult (r : JobResult) : Json :=
  Json.obj [("id", Json.str r.id), ("text", Json.str r.text),
    ("output", Json.str r.output), ("processed_at", Json.num (Int.ofNat r.processed_at))]

/-- json Decode of a fetched store payload into a JobResult
(main.go line 175). -/
def decodeJobResult (body : Option Json) : Option JobResult :=
  match body with
  | none => none
  | some Json.null => some ⟨"", "", "", 0⟩
  | some (Json.obj fields) => do
      let id ← getStringField fields "id"
      let text ← getStringField fields "text"
      let output ← getStringField fields "output"
      let processedAt ← getTimeField fields "processed_at"
      pure ⟨id, text, output, processedAt⟩
  | some _ => none

/-- strings.ToUpper (main.go line 220), modelled as the character-wise
uppercase map over the text. -/
def stringsToUpper (s : String) : String := ⟨s.data.map Char.toUpper⟩

/-- The object-store key for a job id (main.go lines 163 and 234):
jobs/{id}.json. -/
def jobKey (id : String) : String := "jobs/" ++ id ++ ".json"

/-- The object store, modelled as an association list from keys to JSON
payloads; a later put for the same key shadows the earlier one. -/
abbrev Store := List (String × Json)

/-- s3 PutObject (main.go lines 235-240): overwrite the payload at a key. -/
def putStore (st : Store) (key : String) (val : Json) : Store := (key, val) :: st

/-- s3 GetObject served from a concrete store state: a present key
returns its payload, an absent key is a retrieval error (the source
does not distinguish not-found from other retrieval errors). -/
def fetchFromStore (st : Store) (key : String) : Except Unit (Option Json) :=
  match st.lookup key with
  | some v => Except.ok (some v)
  | none => Except.error ()

/-- HTTP method of an inbound request. -/
inductive Method where
  | get
  | post
  | put
  | del
  deriving DecidableEq

/-- An HTTP response body: plain text (http.Error and the probe bodies)
or a JSON document (the job endpoints). -/
inductive RespBody where
  | text (s : String)
  | json (j : Json)

/-- An HTTP response: numeric status code and body. -/
structure HttpResponse where
  status : Nat
  body : RespBody

/-- App from main.go lines 22-27.  The two client pointers are modelled
as optional handles so that the nil checks in readyz are expressible. -/
structure App where
  sqsClient : Option Unit
  s3Client : Option Unit
  sqsURL : String
  s3Bucket : String

/-- The App constructed at startup (main.go lines 66-71): both clients
are built by the SDK constructors, which always return non-nil handles. -/
def mkApp (sqsURL s3Bucket : String) : App :=
  { sqsClient := some (), s3Client := some (), sqsURL := sqsURL, s3Bucket := s3Bucket }

/-- readyz handler (main.go lines 99-110). -/
def readyz (a : App) (method : Method) : HttpResponse :=
  if method ≠ Method.get then ⟨405, RespBody.text "method not allowed"⟩
  else if a.sqsClient = none ∨ a.s3Client = none then ⟨503, RespBody.text "not ready"⟩
  else ⟨200, RespBody.text "ready"⟩

/-- createJob handler (main.go lines 112-149).  freshId is the value of
uuid.New().String(); enqueueOk is the outcome of the external
sqs SendMessage call; the queue is returned alongside the response so
that the enqueue effect is visible.  json.Marshal of a JobMessage
cannot fail, so that branch of the source is vacuous here. -/
def createJob (method : Method) (reqBody : Option Json) (freshId : String)
    (enqueueOk : Bool) (queue : List (Option Json)) :
    HttpResponse × List (Option Json) :=
  if method ≠ Method.post then (⟨405, RespBody.text "method not allowed"⟩, queue)
  else
    match decodeJobRequest reqBody with
    | none => (⟨400, RespBody.text "invalid JSON"⟩, queue)
    | some req =>
        let message : JobMessage := ⟨freshId, req.text⟩
        let messageBody := encodeJobMessage message
        if enqueueOk then
          (⟨201, RespBody.json (Json.obj [("id", Json.str freshId)])⟩,
            queue ++ [some messageBody])
        else (⟨500, RespBody.text "failed to send message"⟩, queue)

/-- r.URL.Path[len("/jobs/"):] from main.go line 157: drop the six
leading characters of the request path. -/
def pathSuffix (path : String) : String := ⟨path.data.drop 6⟩

/-- getJob handler (main.go lines 151-182).  fetch is the external
s3 GetObject call keyed by object key; its error case covers both
not-found and every other retrieval failure, as in the source. -/
def getJob (method : Method) (path : String)
    (fetch : String → Except Unit (Option Json)) : HttpResponse :=
  if method ≠ Method.get then ⟨405, RespBody.text "method not allowed"⟩
  else
    let jobID := pathSuffix path
    if jobID = "" then ⟨400, RespBody.text "job id required"⟩
    else
      match fetch (jobKey jobID) with
      | Except.error _ => ⟨404, RespBody.text "job not found"⟩
      | Except.ok payload =>
          match decodeJobResult payload with
          | none => ⟨500, RespBody.text "failed to decode job"⟩
          | some jobResult => ⟨200, RespBody.json (encodeJobResult jobResult)⟩

/-- The JobResult built by the worker for a decoded message at a given
instant (main.go lines 220-227). -/
def mkJobResult (m : JobMessage) (now : Nat) : JobResult :=
  ⟨m.id, m.text, stringsToUpper m.text, now⟩

/-- processMessage (main.go lines 214-246).  putOk is the outcome of the
external s3 PutObject call; the error result covers both the unmarshal
failure and the put failure, matching the error return of the source. -/
def processMessage (putOk : Bool) (now : Nat) (st : Store) (body : Option Json) :
    Except Unit Store :=
  match decodeJobMessage body with
  | none => Except.error ()
  | some jobMsg =>
      let jobResult := mkJobResult jobMsg now
      let resultBody := encodeJobResult jobResult
      if putOk then Except.ok (putStore st (jobKey jobMsg.id) resultBody)
      else Except.error ()

/-- A received queue message (types.Message): body payload and receipt
handle. -/
structure Message where
  body : Option Json
  receiptHandle : String

/-- Observable actions of one worker-loop iteration, used to state in
which order the loop touches the queue. -/
inductive WEvent where
  | receiveError
  | sleepBackoff
  | processFailed (m : Message)
  | deleteCalled (m : Message)
  | deleteFailed (m : Message)

/-- The inner message loop of workerLoop (main.go lines 197-210): each
received message is processed; on error the loop logs and continues; on
success DeleteMessage is called, and a delete failure is logged only.
putOk and delOk are the outcomes of the external put and delete calls. -/
def handleBatch (putOk delOk : Message → Bool) (now : Nat) :
    List Message → Store → Store × List WEvent
  | [], st => (st, [])
  | m :: ms, st =>
      match processMessage (putOk m) now st m.body with
      | Except.error _ =>
          let rest := handleBatch putOk delOk now ms st
          (rest.1, WEvent.processFailed m :: rest.2)
      | Except.ok st1 =>
          let delEvs := if delOk m then [WEvent.deleteCalled m]
            else [WEvent.deleteCalled m, WEvent.deleteFailed m]
          let rest := handleBatch putOk delOk now ms st1
          (rest.1, delEvs ++ rest.2)

/-- One iteration of workerLoop (main.go lines 184-212): a receive error
is logged and followed by a fixed backoff sleep; otherwise every message
of the received batch is handled in order. -/
def workerLoopIter (recv : Except Unit (List Message)) (putOk delOk : Message → Bool)
    (now : Nat) (st : Store) : Store × List WEvent :=
  match recv with
  | Except.error _ => (st, [WEvent.receiveError, WEvent.sleepBackoff])
  | Except.ok msgs => handleBatch putOk delOk now msgs st

/-- Trace events of the whole system, recording which operations have
happened: a job id was enqueued by POST /jobs, or a message with a given
id was successfully dequeued and processed (decoded and its result
written). -/
inductive Event where
  | enqueued (id : String)
  | processed (id : String)
  deriving DecidableEq

/-- Global system state: the queue contents (message payloads), the
object store, and the event history. -/
structure Sys where
  queue : List (Option Json)
  store : Store
  events : List Event

/-- The state at startup: empty queue, empty store, nothing has
happened. -/
def Sys.init : Sys := ⟨[], [], []⟩

/-- The ids that have been successfully processed at least once,
extracted from the event history. -/
def processedIds (events : List Event) : List String :=
  events.filterMap fun e =>
    match e with
    | Event.processed id => some id
    | _ => none

/-- One observable step of the system.  HTTP handlers and the worker
loop act on the shared queue and store; every constructor records
exactly the queue/store/trace effect of the corresponding branch of
main.go.  Each target-state component is given by an equation so that
concrete runs can be built by rfl. -/
inductive Step : Sys → Sys → Prop
  /-- POST /jobs accepted: SendMessage succeeded and one JobMessage was
  appended to the queue (main.go lines 124-148). -/
  | createJobOk (s s' : Sys) (freshId text : String)
      (hq : s'.queue = s.queue ++ [some (encodeJobMessage ⟨freshId, text⟩)])
      (hst : s'.store = s.store)
      (he : s'.events = s.events ++ [Event.enqueued freshId]) : Step s s'
  /-- POST /jobs rejected (wrong method, undecodable body) or its
  SendMessage failed: no queue or store effect (main.go lines 113-122
  and 140-144). -/
  | createJobNoSend (s s' : Sys)
      (hq : s'.queue = s.queue)
      (hst : s'.store = s.store)
      (he : s'.events = s.events) : Step s s'
  /-- GET /jobs/{id}, GET /healthz or GET /readyz: read-only, no queue
  or store effect (main.go lines 90-110 and 151-182). -/
  | httpRead (s s' : Sys)
      (hq : s'.queue = s.queue)
      (hst : s'.store = s.store)
      (he : s'.events = s.events) : Step s s'
  /-- Worker ReceiveMessage failed: log, sleep, retry; no effect
  (main.go lines 191-195). -/
  | receiveFailed (s s' : Sys)
      (hq : s'.queue = s.queue)
      (hst : s'.store = s.store)
      (he : s'.events = s.events) : Step s s'
  /-- Worker received a message but processMessage returned an error
  (unmarshal failure or PutObject failure): the message is not deleted
  and the store is unchanged (main.go lines 198-201 with putOk false or
  an undecodable body). -/
  | processFailedStep (s s' : Sys) (i : Nat) (hi : i < s.queue.length)
      (putOk : Bool) (now : Nat)
      (hfail : processMessage putOk now s.store (s.queue.get ⟨i, hi⟩) = Except.error ())
      (hq : s'.queue = s.queue)
      (hst : s'.store = s.store)
      (he : s'.events = s.events) : Step s s'
  /-- Worker processed a message successfully and DeleteMessage
  succeeded: the result is written and the message leaves the queue
  (main.go lines 198-209). -/
  | processedDeleted (s s' : Sys) (i : Nat) (hi : i < s.queue.length)
      (jm : JobMessage) (now : Nat) (st1 : Store)
      (hdec : decodeJobMessage (s.queue.get ⟨i, hi⟩) = some jm)
      (hrun : processMessage true now s.store (s.queue.get ⟨i, hi⟩) = Except.ok st1)
      (hq : s'.queue = s.queue.eraseIdx i)
      (hst : s'.store = st1)
      (he : s'.events = s.events ++ [Event.processed jm.id]) : Step s s'
  /-- Worker processed a message successfully but DeleteMessage failed:
  the failure is only logged, so the message stays in the queue for
  redelivery (main.go lines 203-209). -/
  | processedDeleteFailed (s s' : Sys) (i : Nat) (hi : i < s.queue.length)
      (jm : JobMessage) (now : Nat) (st1 : Store)
      (hdec : decodeJobMessage (s.queue.get ⟨i, hi⟩) = some jm)
      (hrun : processMessage true now s.store (s.queue.get ⟨i, hi⟩) = Except.ok st1)
      (hq : s'.queue = s.queue)
      (hst : s'.store = st1)
      (he : s'.events = s.events ++ [Event.processed jm.id]) : Step s s'

/-- States reachable from startup by system steps. -/
inductive Reachable : Sys → Prop
  | init : Reachable Sys.init
  | step {s s' : Sys} : Reachable s → Step s s' → Reachable s'

lemma jobKey_injective {x y : String} (h : jobKey x = jobKey y) : x = y := by
  have hd : (jobKey x).data = (jobKey y).data := by rw [h]
  simp only [jobKey, String.data_append] at hd
  exact String.ext (List.append_cancel_left (List.append_cancel_right hd))

lemma lookup_putStore_self (st : Store) (k : String) (v : Json) :
    List.lookup k (putStore st k v) = some v := by
  simp [putStore, List.lookup]

lemma lookup_putStore_ne (st : Store) {k k' : String} (h : k ≠ k') (v : Json) :
    List.lookup k (putStore st k' v) = List.lookup k st := by
  have hb : (k == k') = false := beq_eq_false_iff_ne.mpr h
  simp [putStore, List.lookup, hb]

lemma processedIds_append_enqueued (evs : List Event) (i : String) :
    processedIds (evs ++ [Event.enqueued i]) = processedIds evs := by
  simp [processedIds, List.filterMap_append]

lemma processedIds_append_processed (evs : List Event) (i : String) :
    processedIds (evs ++ [Event.processed i]) = processedIds evs ++ [i] := by
  simp [processedIds, List.filterMap_append]

lemma processMessage_ok_elim {now : Nat} {st st1 : Store} {body : Option Json}
    {jm : JobMessage} (hdec : decodeJobMessage body = some jm)
    (hrun : processMessage true now st body = Except.ok st1) :
    st1 = putStore st (jobKey jm.id) (encodeJobResult (mkJobResult jm now)) := by
  simp [processMessage, hdec] at hrun
  exact hrun.symm

/-- C1.  Lifecycle invariant: in every reachable system state, a payload
exists in the object store under key jobs/X.json exactly when some
message carrying id X was successfully processed at least once; no step
of the system other than successful processing creates or deletes
objects under jobs/. -/
theorem jobresult_lifecycle_invariant (s : Sys) (h : Reachable s) (X : String) :
    ((List.lookup (jobKey X) s.store).isSome = true) ↔ X ∈ processedIds s.events := by
  induction h with
  | init => simp [Sys.init, processedIds]
  | step hr hstep ih =>
      cases hstep with
      | createJobOk freshId text hq hst he =>
          rw [hst, he, processedIds_append_enqueued]
          exact ih
      | createJobNoSend hq hst he => rw [hst, he]; exact ih
      | httpRead hq hst he => rw [hst, he]; exact ih
      | receiveFailed hq hst he => rw [hst, he]; exact ih
      | processFailedStep i hi putOk now hfail hq hst he => rw [hst, he]; exact ih
      | processedDeleted i hi jm now st1 hdec hrun hq hst he =>
          rw [hst, he, processMessage_ok_elim hdec hrun, processedIds_append_processed]
          by_cases hX : X = jm.id
          · subst hX
            simp [lookup_putStore_self]
          · have hk : jobKey X ≠ jobKey jm.id := fun hc => hX (jobKey_injective hc)
            rw [lookup_putStore_ne _ hk]
            simp only [List.mem_append, List.mem_singleton, hX, or_false]
            exact ih
      | processedDeleteFailed i hi jm now st1 hdec hrun hq hst he =>
          rw [hst, he, processMessage_ok_elim hdec hrun, processedIds_append_processed]
          by_cases hX : X = jm.id
          · subst hX
            simp [lookup_putStore_self]
          · have hk : jobKey X ≠ jobKey jm.id := fun hc => hX (jobKey_injective hc)
            rw [lookup_putStore_ne _ hk]
            simp only [List.mem_append, List.mem_singleton, hX, or_false]
            exact ih

/-- A concrete job message used to instantiate the invariants on a
concrete run. -/
def demoMsg : JobMessage := ⟨"j1", "hi"⟩

/-- State after POST /jobs enqueued demoMsg. -/
def demoMid : Sys := ⟨[some (encodeJobMessage demoMsg)], [], [Event.enqueued "j1"]⟩

/-- State after the worker processed and acknowledged demoMsg. -/
def demoSys : Sys :=
  ⟨[], putStore [] (jobKey "j1") (encodeJobResult (mkJobResult demoMsg 0)),
    [Event.enqueued "j1", Event.processed "j1"]⟩

lemma step_init_demoMid : Step Sys.init demoMid :=
  Step.createJobOk Sys.init demoMid "j1" "hi" rfl rfl rfl

lemma step_demoMid_demoSys : Step demoMid demoSys :=
  Step.processedDeleted demoMid demoSys 0 (by decide) demoMsg 0
    (putStore [] (jobKey "j1") (encodeJobResult (mkJobResult demoMsg 0)))
    rfl rfl rfl rfl rfl

/-- Witness for C1: the invariant instantiated on the concrete two-step
run init → enqueue j1 → process-and-delete j1. -/
theorem jobresult_lifecycle_invariant_witness :
    ((List.lookup (jobKey "j1") demoSys.store).isSome = true) ↔
      "j1" ∈ processedIds demoSys.events :=
  jobresult_lifecycle_invariant demoSys
    (Reachable.step (Reachable.step Reachable.init step_init_demoMid) step_demoMid_demoSys)
    "j1"

lemma processMessage_ok_char {putOk : Bool} {now : Nat} {st st1 : Store}
    {body : Option Json} (h : processMessage putOk now st body = Except.ok st1) :
    (decodeJobMessage body).isSome = true ∧ putOk = true := by
  unfold processMessage at h
  cases hd : decodeJobMessage body with
  | none => rw [hd] at h; cases h
  | some jm =>
      rw [hd] at h
      cases hput : putOk with
      | false => rw [hput] at h; simp at h
      | true => exact ⟨rfl, rfl⟩

lemma processMessage_error_char {putOk : Bool} {now : Nat} {st : Store}
    {body : Option Json} {e : Unit}
    (h : processMessage putOk now st body = Except.error e) :
    ¬((decodeJobMessage body).isSome = true ∧ putOk = true) := by
  rintro ⟨hdec, hput⟩
  cases hd : decodeJobMessage body with
  | none => rw [hd] at hdec; cases hdec
  | some jm =>
      unfold processMessage at h
      rw [hd, hput] at h
      simp at h

lemma deleteCalled_mem_handleBatch (putOk delOk : Message → Bool) (now : Nat)
    (msgs : List Message) (st : Store) (m : Message) :
    WEvent.deleteCalled m ∈ (handleBatch putOk delOk now msgs st).2 ↔
      (m ∈ msgs ∧ (decodeJobMessage m.body).isSome = true ∧ putOk m = true) := by
  induction msgs generalizing st with
  | nil => simp [handleBatch]
  | cons m0 ms ih =>
      cases hp : processMessage (putOk m0) now st m0.body with
      | error e =>
          have hchar := processMessage_error_char hp
          simp only [handleBatch, hp, List.mem_cons]
          rw [ih st]
          constructor
          · rintro (hbad | ⟨hm, hP⟩)
            · exact absurd hbad (by simp)
            · exact ⟨Or.inr hm, hP⟩
          · rintro ⟨(rfl | hm), hP⟩
            · exact absurd hP hchar
            · exact Or.inr ⟨hm, hP⟩
      | ok st1 =>
          have hchar := processMessage_ok_char hp
          cases hdel : delOk m0 with
          | true =>
              simp only [handleBatch, hp, hdel, if_true, List.singleton_append,
                List.mem_cons, WEvent.deleteCalled.injEq]
              rw [ih st1]
              constructor
              · rintro (rfl | ⟨hm, hP⟩)
                · exact ⟨Or.inl rfl, hchar⟩
                · exact ⟨Or.inr hm, hP⟩
              · rintro ⟨(rfl | hm), hP⟩
                · exact Or.inl rfl
                · exact Or.inr ⟨hm, hP⟩
          | false =>
              simp only [handleBatch, hp, hdel, Bool.false_eq_true, if_false,
                List.cons_append, List.nil_append, List.mem_cons,
                WEvent.deleteCalled.injEq]
              rw [ih st1]
              constructor
              · rintro (rfl | hbad | ⟨hm, hP⟩)
                · exact ⟨Or.inl rfl, hchar⟩
                · exact absurd hbad (by simp)
                · exact ⟨Or.inr hm, hP⟩
              · rintro ⟨(rfl | hm), hP⟩
                · exact Or.inl rfl
                · exact Or.inr (Or.inr ⟨hm, hP⟩)

lemma handled_mem_handleBatch (putOk delOk : Message → Bool) (now : Nat)
    (msgs : List Message) (st : Store) (m : Message) (hm : m ∈ msgs) :
    WEvent.processFailed m ∈ (handleBatch putOk delOk now msgs st).2 ∨
      WEvent.deleteCalled m ∈ (handleBatch putOk delOk now msgs st).2 := by
  induction msgs generalizing st with
  | nil => cases hm
  | cons m0 ms ih =>
      rcases List.mem_cons.mp hm with rfl | hm2
      · cases hp : processMessage (putOk m) now st m.body with
        | error e =>
            left
            simp [handleBatch, hp]
        | ok st1 =>
            right
            cases hdel : delOk m <;> simp [handleBatch, hp, hdel]
      · cases hp : processMessage (putOk m0) now st m0.body with
        | error e =>
            rcases ih st hm2 with hfail | hdel
            · left
              simp only [handleBatch, hp, List.mem_cons]
              exact Or.inr hfail
            · right
              simp only [handleBatch, hp, List.mem_cons]
              exact Or.inr hdel
        | ok st1 =>
            rcases ih st1 hm2 with hfail | hdel
            · left
              cases hd : delOk m0 <;> simp [handleBatch, hp, hd, hfail]
            · right
              cases hd : delOk m0 <;> simp [handleBatch, hp, hd, hdel]

/-- C2.  Acknowledgment ordering for one worker-loop iteration: a
received message's queue delete is invoked exactly when processMessage
returned success on it (the decode succeeded and the store write
succeeded); on decode or store failure the message is never deleted,
and every received message is still handled (the loop continues without
crashing). -/
theorem worker_ack_after_success (putOk delOk : Message → Bool) (now : Nat)
    (msgs : List Message) (st : Store) (m : Message) (hm : m ∈ msgs) :
    (WEvent.deleteCalled m ∈ (workerLoopIter (Except.ok msgs) putOk delOk now st).2 ↔
      (decodeJobMessage m.body).isSome = true ∧ putOk m = true) ∧
    (WEvent.processFailed m ∈ (workerLoopIter (Except.ok msgs) putOk delOk now st).2 ∨
      WEvent.deleteCalled m ∈ (workerLoopIter (Except.ok msgs) putOk delOk now st).2) := by
  constructor
  · rw [show (workerLoopIter (Except.ok msgs) putOk delOk now st) =
        handleBatch putOk delOk now msgs st from rfl]
    rw [deleteCalled_mem_handleBatch]
    exact ⟨fun h => h.2, fun h => ⟨hm, h⟩⟩
  · exact handled_mem_handleBatch putOk delOk now msgs st m hm

/-- A well-formed received message (decodable body), for concrete runs. -/
def demoGoodMsg : Message := ⟨some (encodeJobMessage demoMsg), "rh-1"⟩

/-- A received message whose body is not valid JSON, for concrete runs. -/
def demoBadMsg : Message := ⟨none, "rh-2"⟩

/-- Witness for C2: one iteration over a concrete batch holding one
decodable and one malformed message, with put and delete succeeding. -/
theorem worker_ack_after_success_witness :
    (WEvent.deleteCalled demoGoodMsg ∈
        (workerLoopIter (Except.ok [demoGoodMsg, demoBadMsg])
          (fun _ => true) (fun _ => true) 0 []).2 ↔
      (decodeJobMessage demoGoodMsg.body).isSome = true ∧
        (fun _ : Message => true) demoGoodMsg = true) ∧
    (WEvent.processFailed demoGoodMsg ∈
        (workerLoopIter (Except.ok [demoGoodMsg, demoBadMsg])
          (fun _ => true) (fun _ => true) 0 []).2 ∨
      WEvent.deleteCalled demoGoodMsg ∈
        (workerLoopIter (Except.ok [demoGoodMsg, demoBadMsg])
          (fun _ => true) (fun _ => true) 0 []).2) :=
  worker_ack_after_success (fun _ => true) (fun _ => true) 0 [demoGoodMsg, demoBadMsg]
    [] demoGoodMsg (List.mem_cons_self _ _)

/-- C3.  POST /jobs with a body that decodes as a JobRequest and a
successful SendMessage: the response is 201 with body the JSON object
mapping id to the generated identifier, and exactly one JobMessage with
that id and the request text is appended to the queue. -/
theorem createJob_success (reqBody : Option Json) (req : JobRequest) (freshId : String)
    (queue : List (Option Json)) (hdec : decodeJobRequest reqBody = some req) :
    createJob Method.post reqBody freshId true queue =
      (⟨201, RespBody.json (Json.obj [("id", Json.str freshId)])⟩,
        queue ++ [some (encodeJobMessage ⟨freshId, req.text⟩)]) := by
  simp [createJob, hdec]

/-- Witness for C3: a concrete body with text hello. -/
theorem createJob_success_witness :
    createJob Method.post (some (Json.obj [("text", Json.str "hello")])) "u-1" true [] =
      (⟨201, RespBody.json (Json.obj [("id", Json.str "u-1")])⟩,
        [some (encodeJobMessage ⟨"u-1", "hello"⟩)]) :=
  createJob_success (some (Json.obj [("text", Json.str "hello")])) ⟨"hello"⟩ "u-1" [] rfl

/-- C4.  Output transform: a message that decodes successfully is stored
as a JobResult whose output is the uppercase transliteration of its
text, and the empty string maps to the empty string. -/
theorem process_output_uppercase (body : Option Json) (jm : JobMessage) (now : Nat)
    (st : Store) (hdec : decodeJobMessage body = some jm) :
    processMessage true now st body =
        Except.ok (putStore st (jobKey jm.id)
          (encodeJobResult ⟨jm.id, jm.text, stringsToUpper jm.text, now⟩)) ∧
      stringsToUpper "" = "" := by
  constructor
  · simp [processMessage, hdec, mkJobResult]
  · rfl

/-- Witness for C4: processing a concrete message with text hi. -/
theorem process_output_uppercase_witness :
    processMessage true 7 [] (some (encodeJobMessage ⟨"a", "hi"⟩)) =
        Except.ok (putStore [] (jobKey "a")
          (encodeJobResult ⟨"a", "hi", stringsToUpper "hi", 7⟩)) ∧
      stringsToUpper "" = "" :=
  process_output_uppercase (some (encodeJobMessage ⟨"a", "hi"⟩)) ⟨"a", "hi"⟩ 7 [] rfl

lemma decode_encode_jobResult (r : JobResult) :
    decodeJobResult (some (encodeJobResult r)) = some r := by
  simp [decodeJobResult, encodeJobResult, getStringField, getTimeField, List.lookup,
    Int.ofNat_nonneg, Int.toNat_ofNat]

/-- C5.  Idempotence of processing: running processMessage twice on the
same message succeeds both times, each run stores a result under the
same key jobs/{id}.json, the two results agree on id, text and output
(only processed_at differs with the instant), and the object left in
the store after the second run is well-formed (it decodes back to the
second result). -/
theorem process_idempotent (body : Option Json) (jm : JobMessage) (t1 t2 : Nat)
    (st : Store) (hdec : decodeJobMessage body = some jm) :
    ∃ st1 st2,
      processMessage true t1 st body = Except.ok st1 ∧
      processMessage true t2 st1 body = Except.ok st2 ∧
      List.lookup (jobKey jm.id) st1 = some (encodeJobResult (mkJobResult jm t1)) ∧
      List.lookup (jobKey jm.id) st2 = some (encodeJobResult (mkJobResult jm t2)) ∧
      (mkJobResult jm t1).id = (mkJobResult jm t2).id ∧
      (mkJobResult jm t1).text = (mkJobResult jm t2).text ∧
      (mkJobResult jm t1).output = (mkJobResult jm t2).output ∧
      decodeJobResult (some (encodeJobResult (mkJobResult jm t2))) =
        some (mkJobResult jm t2) := by
  refine ⟨putStore st (jobKey jm.id) (encodeJobResult (mkJobResult jm t1)),
    putStore (putStore st (jobKey jm.id) (encodeJobResult (mkJobResult jm t1)))
      (jobKey jm.id) (encodeJobResult (mkJobResult jm t2)),
    ?_, ?_, ?_, ?_, rfl, rfl, rfl, ?_⟩
  · simp [processMessage, hdec]
  · simp [processMessage, hdec]
  · exact lookup_putStore_self _ _ _
  · exact lookup_putStore_self _ _ _
  · exact decode_encode_jobResult _

/-- Witness for C5: processing a concrete message twice at instants 1
and 2. -/
theorem process_idempotent_witness :
    ∃ st1 st2,
      processMessage true 1 [] (some (encodeJobMessage ⟨"b", "go"⟩)) = Except.ok st1 ∧
      processMessage true 2 st1 (some (encodeJobMessage ⟨"b", "go"⟩)) = Except.ok st2 ∧
      List.lookup (jobKey "b") st1 = some (encodeJobResult (mkJobResult ⟨"b", "go"⟩ 1)) ∧
      List.lookup (jobKey "b") st2 = some (encodeJobResult (mkJobResult ⟨"b", "go"⟩ 2)) ∧
      (mkJobResult ⟨"b", "go"⟩ 1).id = (mkJobResult ⟨"b", "go"⟩ 2).id ∧
      (mkJobResult ⟨"b", "go"⟩ 1).text = (mkJobResult ⟨"b", "go"⟩ 2).text ∧
      (mkJobResult ⟨"b", "go"⟩ 1).output = (mkJobResult ⟨"b", "go"⟩ 2).output ∧
      decodeJobResult (some (encodeJobResult (mkJobResult ⟨"b", "go"⟩ 2))) =
        some (mkJobResult ⟨"b", "go"⟩ 2) :=
  process_idempotent (some (encodeJobMessage ⟨"b", "go"⟩)) ⟨"b", "go"⟩ 1 2 [] rfl

lemma pathSuffix_append (t : String) : pathSuffix ("/jobs/" ++ t) = t := by
  unfold pathSuffix
  rw [String.data_append]
  rw [show (6 : Nat) = ("/jobs/".data).length from rfl]
  rw [List.drop_left]

/-- C6 (amended with a nonempty id).  Round-trip: storing the encoding
of a JobResult with nonempty id at key jobs/{id}.json and then serving
GET /jobs/{id} from that store returns 200 with exactly that JSON
document, so id, text and output read back unchanged. -/
theorem getJob_roundtrip (R : JobResult) (st : Store) (hid : R.id ≠ "") :
    getJob Method.get ("/jobs/" ++ R.id)
        (fetchFromStore (putStore st (jobKey R.id) (encodeJobResult R))) =
      ⟨200, RespBody.json (encodeJobResult R)⟩ := by
  simp [getJob, pathSuffix_append, hid, fetchFromStore, lookup_putStore_self,
    decode_encode_jobResult]

/-- Witness for C6 (amended): round-trip of a concrete JobResult. -/
theorem getJob_roundtrip_witness :
    getJob Method.get ("/jobs/" ++ JobResult.id ⟨"c", "ok", "OK", 3⟩)
        (fetchFromStore (putStore [] (jobKey (JobResult.id ⟨"c", "ok", "OK", 3⟩))
          (encodeJobResult ⟨"c", "ok", "OK", 3⟩))) =
      ⟨200, RespBody.json (encodeJobResult ⟨"c", "ok", "OK", 3⟩)⟩ :=
  getJob_roundtrip ⟨"c", "ok", "OK", 3⟩ [] (by decide)

/-- Counterexample to C6 as stated: for a JobResult whose id is the
empty string, stored at its key jobs/.json, the subsequent
GET /jobs/{id} request is GET /jobs/ and is rejected with 400, not
answered with 200. -/
theorem getJob_roundtrip_counterexample :
    (getJob Method.get ("/jobs/" ++ JobResult.id ⟨"", "x", "X", 0⟩)
        (fetchFromStore (putStore [] (jobKey (JobResult.id ⟨"", "x", "X", 0⟩))
          (encodeJobResult ⟨"", "x", "X", 0⟩)))).status = 400 ∧
    ¬((getJob Method.get ("/jobs/" ++ JobResult.id ⟨"", "x", "X", 0⟩)
        (fetchFromStore (putStore [] (jobKey (JobResult.id ⟨"", "x", "X", 0⟩))
          (encodeJobResult ⟨"", "x", "X", 0⟩)))).status = 200) := by
  constructor
  · rfl
  · decide

/-- C7.  GET /jobs/{id} error mapping: empty id yields 400; any store
retrieval error yields 404 (not-found and other errors are not
distinguished); a stored payload that does not decode as a JobResult
yields 500; otherwise the decoded JobResult is returned as JSON with
200. -/
theorem getJob_error_mapping (path : String) (fetch : String → Except Unit (Option Json)) :
    (pathSuffix path = "" →
      getJob Method.get path fetch = ⟨400, RespBody.text "job id required"⟩) ∧
    (∀ e : Unit, pathSuffix path ≠ "" →
      fetch (jobKey (pathSuffix path)) = Except.error e →
      getJob Method.get path fetch = ⟨404, RespBody.text "job not found"⟩) ∧
    (∀ payload : Option Json, pathSuffix path ≠ "" →
      fetch (jobKey (pathSuffix path)) = Except.ok payload →
      decodeJobResult payload = none →
      getJob Method.get path fetch = ⟨500, RespBody.text "failed to decode job"⟩) ∧
    (∀ (payload : Option Json) (r : JobResult), pathSuffix path ≠ "" →
      fetch (jobKey (pathSuffix path)) = Except.ok payload →
      decodeJobResult payload = some r →
      getJob Method.get path fetch = ⟨200, RespBody.json (encodeJobResult r)⟩) := by
  refine ⟨?_, ?_, ?_, ?_⟩
  · intro h0
    simp [getJob, h0]
  · intro e hne hf
    simp [getJob, hne, hf]
  · intro payload hne hf hd
    simp [getJob, hne, hf, hd]
  · intro payload r hne hf hd
    simp [getJob, hne, hf, hd]

/-- Witness for C7: a retrieval error on a concrete path maps to 404. -/
theorem getJob_error_mapping_witness :
    getJob Method.get "/jobs/a" (fun _ => Except.error ()) =
      ⟨404, RespBody.text "job not found"⟩ :=
  (getJob_error_mapping "/jobs/a" (fun _ => Except.error ())).2.1 () (by decide) rfl

/-- C8.  POST /jobs with a body that is not valid JSON is rejected with
400 and the queue is returned unchanged: nothing is enqueued. -/
theorem createJob_malformed (freshId : String) (enqueueOk : Bool)
    (queue : List (Option Json)) :
    createJob Method.post none freshId enqueueOk queue =
      (⟨400, RespBody.text "invalid JSON"⟩, queue) := by
  simp [createJob, decodeJobRequest]

/-- C9.  The App built at startup has both clients non-nil, so the 503
branch of GET /readyz is unreachable: every GET /readyz answers 200
with body ready. -/
theorem readyz_always_ready (sqsURL s3Bucket : String) :
    (mkApp sqsURL s3Bucket).sqsClient ≠ none ∧
    (mkApp sqsURL s3Bucket).s3Client ≠ none ∧
    readyz (mkApp sqsURL s3Bucket) Method.get = ⟨200, RespBody.text "ready"⟩ := by
  refine ⟨by simp [mkApp], by simp [mkApp], ?_⟩
  simp [readyz, mkApp]

/-- C10.  POST /jobs with a JSON object body lacking the text field
decodes to a JobRequest with empty text: the response is 201 and the
enqueued JobMessage carries the empty string as its text. -/
theorem createJob_missing_text (fields : List (String × Json)) (freshId : String)
    (queue : List (Option Json)) (hf : fields.lookup "text" = none) :
    createJob Method.post (some (Json.obj fields)) freshId true queue =
      (⟨201, RespBody.json (Json.obj [("id", Json.str freshId)])⟩,
        queue ++ [some (encodeJobMessage ⟨freshId, ""⟩)]) := by
  have hdec : decodeJobRequest (some (Json.obj fields)) = some ⟨""⟩ := by
    simp [decodeJobRequest, getStringField, hf]
  simp [createJob, hdec]

/-- Witness for C10: the empty JSON object body. -/
theorem createJob_missing_text_witness :
    createJob Method.post (some (Json.obj [])) "u-2" true [] =
      (⟨201, RespBody.json (Json.obj [("id", Json.str "u-2")])⟩,
        [some (encodeJobMessage ⟨"u-2", ""⟩)]) :=
  createJob_missing_text [] "u-2" [] rfl
